import Mathlib

set_option linter.unusedVariables false

/-!
Verification of `boost::interprocess::file_mutex`
(src/include/boost/interprocess/sync/file_mutex.hpp).

The class is a thin adapter over the external `boost::interprocess::file_lock`
primitive and the `boost::filesystem` utilities; those collaborators are not
part of the repository source, so they are modelled from the specification
(each such definition says so in its doc comment).  Everything in the
`file_mutex` namespace is translated directly from the header.
-/

namespace FileMutexSpec

/-- Filesystem paths.  `boost::filesystem::path::operator+=` concatenates the
native strings with no separator, so a path is modelled as its string. -/
abbrev Path := String

/-- An OS lock-file handle, identified by a numeric id. -/
abbrev Handle := Nat

/-- Modelled from the spec: the state owned by a `boost::interprocess::file_lock`
(the underlying primitive, not part of the repository source) — an optional OS
handle; `none` is the default-constructed, empty lock that owns nothing. -/
abbrev FileLock := Option Handle

/-- Modelled from the spec: the advisory-lock state of one lock file — at most
one exclusive holder (holder ids are naturals) and a list of sharable holders. -/
structure LockState where
  exclusive : Option Nat
  sharable : List Nat
deriving DecidableEq

/-- Modelled from the spec: non-blocking exclusive acquisition of the OS
advisory lock.  Succeeds exactly when no other holder (exclusive or sharable)
exists; on failure the lock state is unchanged. -/
def try_acquire_exclusive (st : LockState) (pid : Nat) : LockState × Bool :=
  if st.exclusive = none ∧ st.sharable = [] then (⟨some pid, []⟩, true)
  else (st, false)

/-- Modelled from the spec: blocking exclusive acquisition.  The caller blocks
until every other holder has released; the returned state is the state at the
moment of acquisition: the caller holds exclusively, nobody holds sharably. -/
def acquire_exclusive (st : LockState) (pid : Nat) : LockState :=
  ⟨some pid, []⟩

/-- Modelled from the spec: exclusive acquisition with a deadline.  `freeAt` is
the instant at which the current holders will all have released.  If the lock
is free now, acquisition is immediate; otherwise it succeeds exactly when the
holders release no later than the deadline; on timeout the state is unchanged. -/
def acquire_exclusive_until (st : LockState) (pid : Nat)
    (freeAt deadline : Nat) : LockState × Bool :=
  if st.exclusive = none ∧ st.sharable = [] then (⟨some pid, []⟩, true)
  else if freeAt ≤ deadline then (⟨some pid, []⟩, true)
  else (st, false)

/-- Modelled from the spec: release of exclusive ownership. -/
def release_exclusive (st : LockState) : LockState :=
  ⟨none, st.sharable⟩

/-- Modelled from the spec: non-blocking sharable acquisition.  Succeeds
exactly when no exclusive holder exists — other sharable holders never block
it; on failure the lock state is unchanged. -/
def try_acquire_sharable (st : LockState) (pid : Nat) : LockState × Bool :=
  if st.exclusive = none then (⟨none, pid :: st.sharable⟩, true)
  else (st, false)

/-- Modelled from the spec: blocking sharable acquisition.  Waits only for an
exclusive holder (who, by mutual exclusion, has no sharable companions). -/
def acquire_sharable (st : LockState) (pid : Nat) : LockState :=
  if st.exclusive = none then ⟨none, pid :: st.sharable⟩
  else ⟨none, [pid]⟩

/-- Modelled from the spec: sharable acquisition with a deadline; `freeAt` is
the instant at which the current exclusive holder will release. -/
def acquire_sharable_until (st : LockState) (pid : Nat)
    (freeAt deadline : Nat) : LockState × Bool :=
  if st.exclusive = none then (⟨none, pid :: st.sharable⟩, true)
  else if freeAt ≤ deadline then (⟨none, [pid]⟩, true)
  else (st, false)

/-- Modelled from the spec: release of one sharable ownership claim. -/
def release_sharable (st : LockState) (pid : Nat) : LockState :=
  ⟨st.exclusive, st.sharable.erase pid⟩

/-- Modelled from the spec: `file_lock::lock` — delegates to the OS advisory
facility.  The `fl` receiver identifies the owned handle; operating on an
empty lock is a precondition violation, not modelled further. -/
def FileLock.lock (fl : FileLock) (st : LockState) (pid : Nat) : LockState :=
  acquire_exclusive st pid

/-- Modelled from the spec: `file_lock::try_lock`. -/
def FileLock.try_lock (fl : FileLock) (st : LockState) (pid : Nat) :
    LockState × Bool :=
  try_acquire_exclusive st pid

/-- Modelled from the spec: `file_lock::timed_lock`. -/
def FileLock.timed_lock (fl : FileLock) (st : LockState) (pid : Nat)
    (freeAt deadline : Nat) : LockState × Bool :=
  acquire_exclusive_until st pid freeAt deadline

/-- Modelled from the spec: `file_lock::unlock`. -/
def FileLock.unlock (fl : FileLock) (st : LockState) : LockState :=
  release_exclusive st

/-- Modelled from the spec: `file_lock::lock_sharable`. -/
def FileLock.lock_sharable (fl : FileLock) (st : LockState) (pid : Nat) :
    LockState :=
  acquire_sharable st pid

/-- Modelled from the spec: `file_lock::try_lock_sharable`. -/
def FileLock.try_lock_sharable (fl : FileLock) (st : LockState) (pid : Nat) :
    LockState × Bool :=
  try_acquire_sharable st pid

/-- Modelled from the spec: `file_lock::timed_lock_sharable`. -/
def FileLock.timed_lock_sharable (fl : FileLock) (st : LockState) (pid : Nat)
    (freeAt deadline : Nat) : LockState × Bool :=
  acquire_sharable_until st pid freeAt deadline

/-- Modelled from the spec: `file_lock::unlock_sharable`. -/
def FileLock.unlock_sharable (fl : FileLock) (st : LockState) (pid : Nat) :
    LockState :=
  release_sharable st pid

/-- Modelled from the spec: `file_lock::swap` exchanges the owned handles of
two locks. -/
def FileLock.swap (a b : FileLock) : FileLock × FileLock :=
  (b, a)

/-- Modelled from the spec: the filesystem — the existing files with their
contents, plus the paths at which the OS would report an I/O failure. -/
structure Fs where
  files : List (Path × String)
  ioFail : List Path
deriving DecidableEq

/-- Contents of the file at `p` in an association list, `none` if absent. -/
def findFile : List (Path × String) → Path → Option String
  | [], _ => none
  | (q, c) :: rest, p => if q = p then some c else findFile rest p

/-- Contents of the file at `p`, `none` if no such file exists. -/
def Fs.lookup (fs : Fs) (p : Path) : Option String :=
  findFile fs.files p

/-- Delete every entry for `p` from an association list of files. -/
def eraseFile : List (Path × String) → Path → List (Path × String)
  | [], _ => []
  | (q, c) :: rest, p => if q = p then eraseFile rest p else (q, c) :: eraseFile rest p

/-- Modelled from the spec: an error reported by the filesystem collaborator. -/
inductive FsError where
  | ioError : Path → FsError
deriving DecidableEq

/-- Modelled from the spec: `boost::filesystem::remove` (external collaborator,
not in the repository source).  Deletes the file at exactly the given path;
returns `false` when it did not exist, `true` when it was removed, and raises a
filesystem error on an I/O failure other than non-existence. -/
def filesystem.remove (fs : Fs) (p : Path) : Except FsError (Fs × Bool) :=
  if p ∈ fs.ioFail then Except.error (FsError.ioError p)
  else if (Fs.lookup fs p).isSome then
    Except.ok (⟨eraseFile fs.files p, fs.ioFail⟩, true)
  else Except.ok (fs, false)

/-- Modelled from the spec: `boost::filesystem::ofstream(path, app)` followed
by immediate close — creates an empty file when the path is missing and leaves
an existing file (and its contents) untouched. -/
def ofstream_app (fs : Fs) (p : Path) : Fs :=
  if (Fs.lookup fs p).isSome then fs
  else ⟨(p, "") :: fs.files, fs.ioFail⟩

/-- Modelled from the spec: `file_lock(path.c_str())` — acquires a fresh OS
handle bound to the lock file; `h` is the handle id the OS allocates. -/
def file_lock_open (lock_path : Path) (h : Handle) : FileLock :=
  some h

/-- The defaulted `suffix` argument of the `file_mutex` constructor. -/
def defaultSuffix : Path := ".lock"

/-- The `file_mutex` class: its only data member is `file_lock m_file_lock`. -/
structure file_mutex where
  m_file_lock : FileLock
deriving DecidableEq

/-- Source `file_mutex()`: constructs an empty file mutex (its member is the
default-constructed, empty `file_lock`). -/
def file_mutex.default : file_mutex :=
  ⟨none⟩

/-- Source `build_file_lock_path(file_path, suffix)`:
`return file_path += suffix;`. -/
def file_mutex.build_file_lock_path (file_path : Path) (suffix : Path) : Path :=
  file_path ++ suffix

/-- Source `create_file_lock(lock_path)`:
`filesystem::ofstream(lock_path, app); return file_lock(lock_path.string().c_str());`.
`h` is the handle id the OS allocates for the new `file_lock`. -/
def file_mutex.create_file_lock (fs : Fs) (lock_path : Path) (h : Handle) :
    Fs × FileLock :=
  (ofstream_app fs lock_path, file_lock_open lock_path h)

/-- Source `file_mutex(path, suffix)`:
`m_file_lock(create_file_lock(build_file_lock_path(path, suffix)))`.
Returns the updated filesystem and the constructed instance. -/
def file_mutex.construct (fs : Fs) (path suffix : Path) (h : Handle) :
    Fs × file_mutex :=
  let r := file_mutex.create_file_lock fs
      (file_mutex.build_file_lock_path path suffix) h
  (r.1, ⟨r.2⟩)

/-- Source `swap(other)`: `m_file_lock.swap(other.m_file_lock);` — returns the
pair (this, other) after the exchange. -/
def file_mutex.swap (m other : file_mutex) : file_mutex × file_mutex :=
  let r := FileLock.swap m.m_file_lock other.m_file_lock
  (⟨r.1⟩, ⟨r.2⟩)

/-- Source move constructor `file_mutex(moved)`: the new instance is
default-constructed and then `this->swap(moved)` runs.  Returns
(constructed instance, moved-from instance). -/
def file_mutex.move_construct (moved : file_mutex) : file_mutex × file_mutex :=
  file_mutex.swap file_mutex.default moved

/-- Source move assignment `operator=(moved)`:
`file_mutex tmp(boost::move(moved)); this->swap(tmp); return *this;` — `tmp` is
then destroyed, releasing the lock it holds at that point.  Returns
(assigned-to instance, moved-from instance, lock released by `tmp`). -/
def file_mutex.move_assign (m moved : file_mutex) :
    file_mutex × file_mutex × FileLock :=
  let r1 := file_mutex.move_construct moved
  let r2 := file_mutex.swap m r1.1
  (r2.1, r1.2, r2.2.m_file_lock)

/-- Source `lock()`: `m_file_lock.lock();`. -/
def file_mutex.lock (m : file_mutex) (st : LockState) (pid : Nat) : LockState :=
  FileLock.lock m.m_file_lock st pid

/-- Source `try_lock()`: `return m_file_lock.try_lock();`. -/
def file_mutex.try_lock (m : file_mutex) (st : LockState) (pid : Nat) :
    LockState × Bool :=
  FileLock.try_lock m.m_file_lock st pid

/-- Source `timed_lock(abs_time)`: `return m_file_lock.timed_lock(abs_time);`. -/
def file_mutex.timed_lock (m : file_mutex) (st : LockState) (pid : Nat)
    (freeAt deadline : Nat) : LockState × Bool :=
  FileLock.timed_lock m.m_file_lock st pid freeAt deadline

/-- Source `unlock()`: `m_file_lock.unlock();`. -/
def file_mutex.unlock (m : file_mutex) (st : LockState) : LockState :=
  FileLock.unlock m.m_file_lock st

/-- Source `lock_sharable()`: `m_file_lock.lock_sharable();`. -/
def file_mutex.lock_sharable (m : file_mutex) (st : LockState) (pid : Nat) :
    LockState :=
  FileLock.lock_sharable m.m_file_lock st pid

/-- Source `try_lock_sharable()`: `return m_file_lock.try_lock_sharable();`. -/
def file_mutex.try_lock_sharable (m : file_mutex) (st : LockState) (pid : Nat) :
    LockState × Bool :=
  FileLock.try_lock_sharable m.m_file_lock st pid

/-- Source `timed_lock_sharable(abs_time)`:
`return m_file_lock.timed_lock_sharable(abs_time);`. -/
def file_mutex.timed_lock_sharable (m : file_mutex) (st : LockState) (pid : Nat)
    (freeAt deadline : Nat) : LockState × Bool :=
  FileLock.timed_lock_sharable m.m_file_lock st pid freeAt deadline

/-- Source `unlock_sharable()`: `m_file_lock.unlock_sharable();`. -/
def file_mutex.unlock_sharable (m : file_mutex) (st : LockState) (pid : Nat) :
    LockState :=
  FileLock.unlock_sharable m.m_file_lock st pid

/-- Source static `remove(path)`: `return filesystem::remove(path);` — the
argument is passed through unchanged, no suffix is appended. -/
def file_mutex.remove (fs : Fs) (path : Path) : Except FsError (Fs × Bool) :=
  filesystem.remove fs path

/-! ## Helper lemmas about the filesystem model -/

lemma findFile_eraseFile_self (l : List (Path × String)) (p : Path) :
    findFile (eraseFile l p) p = none := by
  induction l with
  | nil => rfl
  | cons x rest ih =>
    obtain ⟨q, c⟩ := x
    simp only [eraseFile]
    by_cases hq : q = p
    · rw [if_pos hq]
      exact ih
    · rw [if_neg hq]
      simp only [findFile]
      rw [if_neg hq]
      exact ih

lemma findFile_eraseFile_ne (l : List (Path × String)) (p q : Path)
    (hqp : q ≠ p) : findFile (eraseFile l p) q = findFile l q := by
  induction l with
  | nil => rfl
  | cons x rest ih =>
    obtain ⟨r, c⟩ := x
    by_cases hr : r = p
    · have h1 : eraseFile ((r, c) :: rest) p = eraseFile rest p := by
        simp only [eraseFile, if_pos hr]
      have hrq : r ≠ q := fun he => hqp (by rw [← he]; exact hr)
      rw [h1, ih]
      simp only [findFile, if_neg hrq]
    · have h1 : eraseFile ((r, c) :: rest) p = (r, c) :: eraseFile rest p := by
        simp only [eraseFile, if_neg hr]
      rw [h1]
      simp only [findFile]
      by_cases hrq : r = q
      · rw [if_pos hrq, if_pos hrq]
      · rw [if_neg hrq, if_neg hrq]
        exact ih

/-! ## C2 -/

/-- C2: constructing a `file_mutex` over `(p, s)` derives the lock-file path as
exactly the concatenation `p ++ s` with no separator, construction touches the
filesystem exactly at that path (which exists afterwards), and with the default
suffix the lock-file path is `p ++ ".lock"`. -/
theorem C2_lock_file_path (p s : Path) (fs : Fs) (h : Handle) :
    file_mutex.build_file_lock_path p s = p ++ s ∧
    (file_mutex.construct fs p s h).1 = ofstream_app fs (p ++ s) ∧
    (Fs.lookup (file_mutex.construct fs p s h).1 (p ++ s)).isSome = true ∧
    file_mutex.build_file_lock_path p defaultSuffix = p ++ ".lock" := by
  refine ⟨rfl, rfl, ?_, rfl⟩
  show (Fs.lookup (ofstream_app fs (p ++ s)) (p ++ s)).isSome = true
  unfold ofstream_app
  by_cases hp : (Fs.lookup fs (p ++ s)).isSome = true
  · rw [if_pos hp]
    exact hp
  · rw [if_neg hp]
    simp [Fs.lookup, findFile]

/-! ## C1 -/

/-- C1 counterexample: on a filesystem holding both a file at path `a` and its
companion lock file at `a.lock`, `file_mutex::remove a` deletes the file at `a`
itself and leaves `a.lock` in place — refuting the claim that `remove(p)`
deletes `<p><suffix>` rather than the file at `p`. -/
theorem C1_remove_counterexample :
    file_mutex.remove ⟨[("a", ""), ("a.lock", "x")], []⟩ ("a") =
      Except.ok (⟨[("a.lock", "x")], []⟩, true) ∧
    Fs.lookup ⟨[("a.lock", "x")], []⟩ ("a.lock") = some "x" ∧
    Fs.lookup ⟨[("a.lock", "x")], []⟩ ("a") = none ∧
    file_mutex.build_file_lock_path ("a") defaultSuffix = "a.lock" := by
  refine ⟨rfl, by decide, by decide, by decide⟩

/-- C1 (amended): the static `remove(p)` passes `p` through to the filesystem
unchanged — it deletes the file at exactly the path it is given, appending no
suffix, and leaves every other path (in particular `p ++ suffix`) untouched;
its result is `true` exactly when a file existed at `p`. -/
theorem C1_remove_exact_path (fs : Fs) (p : Path) (fs' : Fs) (b : Bool)
    (q : Path) (hq : q ≠ p)
    (hres : file_mutex.remove fs p = Except.ok (fs', b)) :
    Fs.lookup fs' p = none ∧
    Fs.lookup fs' q = Fs.lookup fs q ∧
    (b = true ↔ (Fs.lookup fs p).isSome = true) := by
  unfold file_mutex.remove filesystem.remove at hres
  by_cases hio : p ∈ fs.ioFail
  · rw [if_pos hio] at hres
    exact absurd hres (by simp)
  · rw [if_neg hio] at hres
    by_cases hex : (Fs.lookup fs p).isSome = true
    · rw [if_pos hex] at hres
      simp only [Except.ok.injEq, Prod.mk.injEq] at hres
      obtain ⟨hfs, hb⟩ := hres
      subst hfs
      subst hb
      refine ⟨findFile_eraseFile_self _ _, findFile_eraseFile_ne _ _ _ hq, ?_⟩
      simp [hex]
    · rw [if_neg hex] at hres
      simp only [Except.ok.injEq, Prod.mk.injEq] at hres
      obtain ⟨hfs, hb⟩ := hres
      subst hfs
      subst hb
      refine ⟨Option.not_isSome_iff_eq_none.mp hex, rfl, ?_⟩
      simp [hex]

/-- Witness for the amended C1: a concrete run on a one-file filesystem. -/
theorem C1_remove_exact_path_witness :
    ("b" : Path) ≠ "a" ∧
    file_mutex.remove ⟨[("a", "")], []⟩ ("a") = Except.ok (⟨[], []⟩, true) ∧
    (Fs.lookup ⟨[], []⟩ ("a") = none ∧
     Fs.lookup ⟨[], []⟩ ("b") = Fs.lookup ⟨[("a", "")], []⟩ ("b") ∧
     (true = true ↔ (Fs.lookup ⟨[("a", "")], []⟩ ("a")).isSome = true)) :=
  ⟨by decide, rfl,
   C1_remove_exact_path ⟨[("a", "")], []⟩ ("a") ⟨[], []⟩ true ("b")
     (by decide) rfl⟩

/-! ## C3 -/

/-- C3: every locking operation of `file_mutex` (lock, try_lock, timed_lock,
unlock, lock_sharable, try_lock_sharable, timed_lock_sharable,
unlock_sharable) is exactly the corresponding operation of the underlying
`file_lock` primitive on the owned handle — the same result and the same
effect for every instance and every argument, with nothing added. -/
theorem C3_delegation (m : file_mutex) (st : LockState)
    (pid freeAt deadline : Nat) :
    file_mutex.lock m st pid = FileLock.lock m.m_file_lock st pid ∧
    file_mutex.try_lock m st pid = FileLock.try_lock m.m_file_lock st pid ∧
    file_mutex.timed_lock m st pid freeAt deadline =
      FileLock.timed_lock m.m_file_lock st pid freeAt deadline ∧
    file_mutex.unlock m st = FileLock.unlock m.m_file_lock st ∧
    file_mutex.lock_sharable m st pid =
      FileLock.lock_sharable m.m_file_lock st pid ∧
    file_mutex.try_lock_sharable m st pid =
      FileLock.try_lock_sharable m.m_file_lock st pid ∧
    file_mutex.timed_lock_sharable m st pid freeAt deadline =
      FileLock.timed_lock_sharable m.m_file_lock st pid freeAt deadline ∧
    file_mutex.unlock_sharable m st pid =
      FileLock.unlock_sharable m.m_file_lock st pid :=
  ⟨rfl, rfl, rfl, rfl, rfl, rfl, rfl, rfl⟩

/-! ## C10 -/

/-- C10: `swap` exchanges exactly the two instances' owned file-lock handles
(an instance has no other state), swapping twice restores both instances, and
swapping an instance with itself leaves it unchanged. -/
theorem C10_swap (a b : file_mutex) :
    (file_mutex.swap a b).1.m_file_lock = b.m_file_lock ∧
    (file_mutex.swap a b).2.m_file_lock = a.m_file_lock ∧
    file_mutex.swap (file_mutex.swap a b).1 (file_mutex.swap a b).2 = (a, b) ∧
    file_mutex.swap a a = (a, a) :=
  ⟨rfl, rfl, rfl, rfl⟩

/-! ## C4 -/

/-- C4: move-construction from an instance `a` owning handle `h` yields an
instance owning `h` while `a` becomes empty, and likewise move-assigning `a`
into `b`; the move-constructed instance is (state-wise) identical to the
original, so each subsequent operation on it behaves exactly as it would have
on the original owner. -/
theorem C4_move_transfer (a b : file_mutex) (h : Handle) (st : LockState)
    (pid : Nat) (hown : a.m_file_lock = some h) :
    (file_mutex.move_construct a).1.m_file_lock = some h ∧
    (file_mutex.move_construct a).2.m_file_lock = none ∧
    (file_mutex.move_construct a).1 = a ∧
    (file_mutex.move_assign b a).1.m_file_lock = some h ∧
    (file_mutex.move_assign b a).2.1.m_file_lock = none ∧
    (file_mutex.move_assign b a).1 = a ∧
    file_mutex.try_lock (file_mutex.move_construct a).1 st pid =
      file_mutex.try_lock a st pid ∧
    file_mutex.lock (file_mutex.move_construct a).1 st pid =
      file_mutex.lock a st pid :=
  ⟨hown, rfl, rfl, hown, rfl, rfl, rfl, rfl⟩

/-- Witness for C4 at a concrete pair of instances. -/
theorem C4_move_transfer_witness :
    (file_mutex.move_construct ⟨some 0⟩).1.m_file_lock = some 0 ∧
    (file_mutex.move_construct ⟨some 0⟩).2.m_file_lock = none ∧
    (file_mutex.move_construct ⟨some 0⟩).1 = (⟨some 0⟩ : file_mutex) ∧
    (file_mutex.move_assign ⟨some 1⟩ ⟨some 0⟩).1.m_file_lock = some 0 ∧
    (file_mutex.move_assign ⟨some 1⟩ ⟨some 0⟩).2.1.m_file_lock = none ∧
    (file_mutex.move_assign ⟨some 1⟩ ⟨some 0⟩).1 = (⟨some 0⟩ : file_mutex) ∧
    file_mutex.try_lock (file_mutex.move_construct ⟨some 0⟩).1 ⟨none, []⟩ 3 =
      file_mutex.try_lock ⟨some 0⟩ ⟨none, []⟩ 3 ∧
    file_mutex.lock (file_mutex.move_construct ⟨some 0⟩).1 ⟨none, []⟩ 3 =
      file_mutex.lock ⟨some 0⟩ ⟨none, []⟩ 3 :=
  C4_move_transfer ⟨some 0⟩ ⟨some 1⟩ 0 ⟨none, []⟩ 3 rfl

/-! ## C7 -/

/-- C7: with no I/O failure at `p`, `remove` returns a boolean (never an
error): `true` together with the deletion of the file exactly when the file
existed, `false` with the filesystem unchanged when it did not; immediately
repeating a successful removal returns `false`; and at a path where the OS
reports an I/O failure other than non-existence, `remove` raises a filesystem
error rather than returning a boolean. -/
theorem C7_remove_result (fs : Fs) (p q : Path)
    (hp : p ∉ fs.ioFail) (hq : q ∈ fs.ioFail) :
    file_mutex.remove fs p =
      Except.ok (if (Fs.lookup fs p).isSome then
          (⟨eraseFile fs.files p, fs.ioFail⟩, true) else (fs, false)) ∧
    ((Fs.lookup fs p).isSome = true →
      file_mutex.remove fs p =
        Except.ok (⟨eraseFile fs.files p, fs.ioFail⟩, true) ∧
      file_mutex.remove ⟨eraseFile fs.files p, fs.ioFail⟩ p =
        Except.ok (⟨eraseFile fs.files p, fs.ioFail⟩, false)) ∧
    ((Fs.lookup fs p).isSome = false →
      file_mutex.remove fs p = Except.ok (fs, false)) ∧
    file_mutex.remove fs q = Except.error (FsError.ioError q) := by
  unfold file_mutex.remove filesystem.remove
  refine ⟨?_, ?_, ?_, ?_⟩
  · rw [if_neg hp]
    by_cases hex : (Fs.lookup fs p).isSome = true
    · rw [if_pos hex, if_pos hex]
    · rw [if_neg hex, if_neg hex]
  · intro hex
    rw [if_neg hp, if_pos hex]
    refine ⟨rfl, ?_⟩
    have hp' : p ∉ (⟨eraseFile fs.files p, fs.ioFail⟩ : Fs).ioFail := hp
    rw [if_neg hp']
    have hnone : (Fs.lookup ⟨eraseFile fs.files p, fs.ioFail⟩ p).isSome = false := by
      show (findFile (eraseFile fs.files p) p).isSome = false
      rw [findFile_eraseFile_self]
      rfl
    rw [if_neg (by simp [hnone])]
  · intro hex
    rw [if_neg hp, if_neg (by simp [hex])]
  · rw [if_pos hq]

/-- Witness for C7 on a concrete two-path filesystem. -/
theorem C7_remove_result_witness :
    file_mutex.remove ⟨[("a", "x")], ["b"]⟩ ("a") =
      Except.ok (if (Fs.lookup ⟨[("a", "x")], ["b"]⟩ ("a")).isSome then
          (⟨eraseFile [("a", "x")] ("a"), ["b"]⟩, true)
        else (⟨[("a", "x")], ["b"]⟩, false)) ∧
    ((Fs.lookup ⟨[("a", "x")], ["b"]⟩ ("a")).isSome = true →
      file_mutex.remove ⟨[("a", "x")], ["b"]⟩ ("a") =
        Except.ok (⟨eraseFile [("a", "x")] ("a"), ["b"]⟩, true) ∧
      file_mutex.remove ⟨eraseFile [("a", "x")] ("a"), ["b"]⟩ ("a") =
        Except.ok (⟨eraseFile [("a", "x")] ("a"), ["b"]⟩, false)) ∧
    ((Fs.lookup ⟨[("a", "x")], ["b"]⟩ ("a")).isSome = false →
      file_mutex.remove ⟨[("a", "x")], ["b"]⟩ ("a") =
        Except.ok (⟨[("a", "x")], ["b"]⟩, false)) ∧
    file_mutex.remove ⟨[("a", "x")], ["b"]⟩ ("b") =
      Except.error (FsError.ioError ("b")) :=
  C7_remove_result ⟨[("a", "x")], ["b"]⟩ ("a") ("b") (by decide) (by decide)

/-! ## C9 -/

/-- C9: construction opens the lock file in append mode, creating it (empty,
then immediately closed) only when it is missing: when the lock file already
exists the whole filesystem — in particular the file's contents — is left
unchanged, and when it is missing only the lock path is added, every other
path being untouched. -/
theorem C9_construct_append (fs : Fs) (p s : Path) (h : Handle) (c : String) :
    (Fs.lookup fs (p ++ s) = some c → (file_mutex.construct fs p s h).1 = fs) ∧
    (Fs.lookup fs (p ++ s) = none →
      Fs.lookup (file_mutex.construct fs p s h).1 (p ++ s) = some "" ∧
      ∀ q, q ≠ p ++ s →
        Fs.lookup (file_mutex.construct fs p s h).1 q = Fs.lookup fs q) := by
  constructor
  · intro hc
    show ofstream_app fs (p ++ s) = fs
    unfold ofstream_app
    rw [if_pos (by simp [hc])]
  · intro hn
    have hfs : (file_mutex.construct fs p s h).1 =
        ⟨(p ++ s, "") :: fs.files, fs.ioFail⟩ := by
      show ofstream_app fs (p ++ s) = _
      unfold ofstream_app
      rw [if_neg (by simp [hn])]
    rw [hfs]
    constructor
    · show findFile ((p ++ s, "") :: fs.files) (p ++ s) = some ""
      simp [findFile]
    · intro q hq
      show findFile ((p ++ s, "") :: fs.files) q = Fs.lookup fs q
      simp only [findFile]
      rw [if_neg (fun he => hq he.symm)]
      rfl

/-- Witness for C9: one run on a filesystem already holding the lock file and
one on a filesystem missing it. -/
theorem C9_construct_append_witness :
    (file_mutex.construct ⟨[("a" ++ ".lock", "z")], []⟩ ("a") (".lock") 0).1 =
      (⟨[("a" ++ ".lock", "z")], []⟩ : Fs) ∧
    Fs.lookup (file_mutex.construct ⟨[], []⟩ ("a") (".lock") 0).1
      ("a" ++ ".lock") = some "" ∧
    Fs.lookup (file_mutex.construct ⟨[], []⟩ ("a") (".lock") 0).1 ("b") =
      Fs.lookup ⟨[], []⟩ ("b") :=
  ⟨(C9_construct_append ⟨[("a" ++ ".lock", "z")], []⟩ ("a") (".lock") 0 "z").1
      (by decide),
   ((C9_construct_append ⟨[], []⟩ ("a") (".lock") 0 "").2 rfl).1,
   ((C9_construct_append ⟨[], []⟩ ("a") (".lock") 0 "").2 rfl).2 ("b")
      (by decide)⟩

/-! ## C5: single ownership of handles -/

/-- Number of instances in a world of file locks that own handle `h`. -/
def owners : List FileLock → Handle → Nat
  | [], _ => 0
  | fl :: rest, h => (if fl = some h then 1 else 0) + owners rest h

/-- Every handle is owned by at most one instance of the world. -/
def SingleOwner (w : List FileLock) : Prop :=
  ∀ h, owners w h ≤ 1

lemma owners_eq_zero (w : List FileLock) (h : Handle) :
    some h ∉ w → owners w h = 0 := by
  induction w with
  | nil => intro _; rfl
  | cons x rest ih =>
    intro hnm
    simp only [List.mem_cons, not_or] at hnm
    simp only [owners]
    rw [if_neg (fun he => hnm.1 he.symm), ih hnm.2]

lemma singleOwner_swap12 (x y : FileLock) (w : List FileLock)
    (hs : SingleOwner (x :: y :: w)) : SingleOwner (y :: x :: w) := by
  intro h
  have h1 := hs h
  simp only [owners] at h1 ⊢
  by_cases hx : x = some h <;> by_cases hy : y = some h
  · rw [if_pos hx, if_pos hy] at h1 ⊢
    omega
  · rw [if_pos hx, if_neg hy] at h1 ⊢
    omega
  · rw [if_neg hx, if_pos hy] at h1 ⊢
    omega
  · rw [if_neg hx, if_neg hy] at h1 ⊢
    omega

lemma singleOwner_insert_none (x : FileLock) (w : List FileLock)
    (hs : SingleOwner (x :: w)) : SingleOwner (x :: none :: w) := by
  intro h
  have h1 := hs h
  simp only [owners] at h1 ⊢
  rw [if_neg (by simp : (none : FileLock) ≠ some h)]
  omega

lemma singleOwner_tail (x : FileLock) (w : List FileLock)
    (hs : SingleOwner (x :: w)) : SingleOwner w := by
  intro h
  have h1 := hs h
  simp only [owners] at h1
  by_cases hx : x = some h
  · rw [if_pos hx] at h1
    omega
  · rw [if_neg hx] at h1
    omega

lemma singleOwner_drop_snd (x y : FileLock) (w : List FileLock)
    (hs : SingleOwner (x :: y :: w)) : SingleOwner (x :: w) := by
  intro h
  have h1 := hs h
  simp only [owners] at h1 ⊢
  by_cases hx : x = some h <;> by_cases hy : y = some h
  · rw [if_pos hx] at h1 ⊢
    rw [if_pos hy] at h1
    omega
  · rw [if_pos hx] at h1 ⊢
    rw [if_neg hy] at h1
    omega
  · rw [if_neg hx] at h1 ⊢
    rw [if_pos hy] at h1
    omega
  · rw [if_neg hx] at h1 ⊢
    rw [if_neg hy] at h1
    omega

lemma singleOwner_cons_fresh (h : Handle) (w : List FileLock)
    (hs : SingleOwner w) (hnm : some h ∉ w) : SingleOwner (some h :: w) := by
  intro h'
  have h1 := hs h'
  simp only [owners]
  by_cases he : h = h'
  · subst he
    rw [if_pos rfl, owners_eq_zero w h hnm]
  · rw [if_neg (fun hc => he (Option.some.inj hc))]
    omega

lemma singleOwner_nil : SingleOwner [] :=
  fun _ => Nat.zero_le 1

/-- C5: each operation of the class preserves single ownership of every
handle across any world of instances: `swap` permutes the two touched
handles, move-construction and move-assignment transfer a handle and empty
the source (move-assignment also releases the target's old handle),
construction introduces a handle the OS freshly allocated, default
construction owns nothing, and destruction only removes an owner.  Copying
does not appear: it is disallowed, so no operation ever duplicates a handle. -/
theorem C5_single_owner (a b : file_mutex) (rest : List FileLock) (fs : Fs)
    (p s : Path) (fresh : Handle)
    (hw : SingleOwner (a.m_file_lock :: b.m_file_lock :: rest))
    (hfresh : some fresh ∉ a.m_file_lock :: b.m_file_lock :: rest) :
    SingleOwner ((file_mutex.swap a b).1.m_file_lock ::
      (file_mutex.swap a b).2.m_file_lock :: rest) ∧
    SingleOwner ((file_mutex.move_construct a).1.m_file_lock ::
      (file_mutex.move_construct a).2.m_file_lock :: b.m_file_lock :: rest) ∧
    SingleOwner ((file_mutex.move_assign b a).1.m_file_lock ::
      (file_mutex.move_assign b a).2.1.m_file_lock :: rest) ∧
    SingleOwner ((file_mutex.construct fs p s fresh).2.m_file_lock ::
      a.m_file_lock :: b.m_file_lock :: rest) ∧
    SingleOwner (file_mutex.default.m_file_lock ::
      a.m_file_lock :: b.m_file_lock :: rest) ∧
    SingleOwner (b.m_file_lock :: rest) := by
  refine ⟨?_, ?_, ?_, ?_, ?_, ?_⟩
  · exact singleOwner_swap12 _ _ _ hw
  · show SingleOwner (a.m_file_lock :: none :: b.m_file_lock :: rest)
    exact singleOwner_insert_none _ _ hw
  · show SingleOwner (a.m_file_lock :: none :: rest)
    exact singleOwner_insert_none _ _ (singleOwner_drop_snd _ _ _ hw)
  · show SingleOwner (some fresh :: a.m_file_lock :: b.m_file_lock :: rest)
    exact singleOwner_cons_fresh _ _ hw hfresh
  · show SingleOwner (none :: a.m_file_lock :: b.m_file_lock :: rest)
    exact singleOwner_swap12 _ _ _ (singleOwner_insert_none _ _ hw)
  · exact singleOwner_tail _ _ hw

/-- Witness for C5 on a world of two instances with distinct handles. -/
theorem C5_single_owner_witness :
    SingleOwner ((file_mutex.swap ⟨some 0⟩ ⟨some 1⟩).1.m_file_lock ::
      (file_mutex.swap ⟨some 0⟩ ⟨some 1⟩).2.m_file_lock :: []) ∧
    SingleOwner ((file_mutex.move_construct ⟨some 0⟩).1.m_file_lock ::
      (file_mutex.move_construct ⟨some 0⟩).2.m_file_lock :: some 1 :: []) ∧
    SingleOwner ((file_mutex.move_assign ⟨some 1⟩ ⟨some 0⟩).1.m_file_lock ::
      (file_mutex.move_assign ⟨some 1⟩ ⟨some 0⟩).2.1.m_file_lock :: []) ∧
    SingleOwner ((file_mutex.construct ⟨[], []⟩ ("a") (".lock") 2).2.m_file_lock ::
      some 0 :: some 1 :: []) ∧
    SingleOwner (file_mutex.default.m_file_lock :: some 0 :: some 1 :: []) ∧
    SingleOwner (some 1 :: []) :=
  C5_single_owner ⟨some 0⟩ ⟨some 1⟩ [] ⟨[], []⟩ ("a") (".lock") 2
    (singleOwner_cons_fresh 0 [some 1]
      (singleOwner_cons_fresh 1 [] singleOwner_nil (by decide)) (by decide))
    (by decide)

/-! ## C6 -/

/-- C6: for a caller that does not already hold the lock, `timed_lock`
returns `true` exactly when it acquired exclusive ownership (immediately, or
because the holders release no later than the deadline), and whenever it
returns `false` the lock state is unchanged — it never acquires and then
reports `false`; `timed_lock_sharable` satisfies the mirrored property for
sharable ownership. -/
theorem C6_timed_lock (m : file_mutex) (st : LockState)
    (pid freeAt deadline : Nat)
    (hexc : st.exclusive ≠ some pid) (hshr : pid ∉ st.sharable) :
    ((file_mutex.timed_lock m st pid freeAt deadline).2 = true ↔
      (file_mutex.timed_lock m st pid freeAt deadline).1.exclusive = some pid) ∧
    ((file_mutex.timed_lock m st pid freeAt deadline).2 = false →
      (file_mutex.timed_lock m st pid freeAt deadline).1 = st) ∧
    ((file_mutex.timed_lock_sharable m st pid freeAt deadline).2 = true ↔
      pid ∈ (file_mutex.timed_lock_sharable m st pid freeAt deadline).1.sharable) ∧
    ((file_mutex.timed_lock_sharable m st pid freeAt deadline).2 = false →
      (file_mutex.timed_lock_sharable m st pid freeAt deadline).1 = st) := by
  unfold file_mutex.timed_lock FileLock.timed_lock acquire_exclusive_until
    file_mutex.timed_lock_sharable FileLock.timed_lock_sharable
    acquire_sharable_until
  refine ⟨?_, ?_, ?_, ?_⟩ <;> split_ifs <;> simp_all

/-- Witness for C6: a contender against an exclusive holder that releases
only after the deadline gets `false` and no ownership. -/
theorem C6_timed_lock_witness :
    ((file_mutex.timed_lock ⟨some 9⟩ ⟨some 1, []⟩ 0 5 3).2 = true ↔
      (file_mutex.timed_lock ⟨some 9⟩ ⟨some 1, []⟩ 0 5 3).1.exclusive = some 0) ∧
    ((file_mutex.timed_lock ⟨some 9⟩ ⟨some 1, []⟩ 0 5 3).2 = false →
      (file_mutex.timed_lock ⟨some 9⟩ ⟨some 1, []⟩ 0 5 3).1 = ⟨some 1, []⟩) ∧
    ((file_mutex.timed_lock_sharable ⟨some 9⟩ ⟨some 1, []⟩ 0 5 3).2 = true ↔
      0 ∈ (file_mutex.timed_lock_sharable ⟨some 9⟩ ⟨some 1, []⟩ 0 5 3).1.sharable) ∧
    ((file_mutex.timed_lock_sharable ⟨some 9⟩ ⟨some 1, []⟩ 0 5 3).2 = false →
      (file_mutex.timed_lock_sharable ⟨some 9⟩ ⟨some 1, []⟩ 0 5 3).1 = ⟨some 1, []⟩) :=
  C6_timed_lock ⟨some 9⟩ ⟨some 1, []⟩ 0 5 3 (by decide) (by decide)

/-! ## C8: the advisory-lock protocol -/

/-- Modelled from the spec: one transition of the advisory-lock protocol on a
single lock file.  Any holder id may attempt any operation; blocking
acquisitions fire at the instant their acquisition condition holds, timed
acquisitions may also fire after the holders' release, and a release requires
currently holding the corresponding ownership. -/
inductive Step : LockState → LockState → Prop where
  | exc (st : LockState) (pid : Nat) :
      st.exclusive = none → st.sharable = [] →
      Step st (acquire_exclusive st pid)
  | try_exc (st : LockState) (pid : Nat) :
      Step st (try_acquire_exclusive st pid).1
  | timed_exc (st : LockState) (pid freeAt deadline : Nat) :
      Step st (acquire_exclusive_until st pid freeAt deadline).1
  | rel_exc (st : LockState) (pid : Nat) :
      st.exclusive = some pid → Step st (release_exclusive st)
  | shr (st : LockState) (pid : Nat) :
      st.exclusive = none → Step st (acquire_sharable st pid)
  | try_shr (st : LockState) (pid : Nat) :
      Step st (try_acquire_sharable st pid).1
  | timed_shr (st : LockState) (pid freeAt deadline : Nat) :
      Step st (acquire_sharable_until st pid freeAt deadline).1
  | rel_shr (st : LockState) (pid : Nat) :
      pid ∈ st.sharable → Step st (release_sharable st pid)

/-- Modelled from the spec: the lock states reachable from the free state by
protocol transitions. -/
inductive Reachable : LockState → Prop where
  | init : Reachable ⟨none, []⟩
  | next (st st' : LockState) : Reachable st → Step st st' → Reachable st'

lemma reachable_exc_or_no_sharable (st : LockState) (hr : Reachable st) :
    st.exclusive = none ∨ st.sharable = [] := by
  induction hr with
  | init => exact Or.inl rfl
  | next st st' hr hs ih =>
    cases hs with
    | exc pid h1 h2 => exact Or.inr rfl
    | try_exc pid =>
      unfold try_acquire_exclusive
      split
      · exact Or.inr rfl
      · exact ih
    | timed_exc pid freeAt deadline =>
      unfold acquire_exclusive_until
      split
      · exact Or.inr rfl
      · split
        · exact Or.inr rfl
        · exact ih
    | rel_exc pid h => exact Or.inl rfl
    | shr pid h =>
      unfold acquire_sharable
      split
      · exact Or.inl rfl
      · exact Or.inl rfl
    | try_shr pid =>
      unfold try_acquire_sharable
      split
      · exact Or.inl rfl
      · exact ih
    | timed_shr pid freeAt deadline =>
      unfold acquire_sharable_until
      split
      · exact Or.inl rfl
      · split
        · exact Or.inl rfl
        · exact ih
    | rel_shr pid h =>
      rcases ih with hL | hR
      · exact Or.inl hL
      · right
        show st.sharable.erase pid = []
        rw [hR]
        rfl

/-- Successive non-blocking sharable acquisitions by a list of holders. -/
def acquire_all_sharable (st : LockState) : List Nat → LockState
  | [] => st
  | pid :: rest => acquire_all_sharable (try_acquire_sharable st pid).1 rest

lemma acquire_all_sharable_spec (pids : List Nat) (st : LockState)
    (hfree : st.exclusive = none) :
    (acquire_all_sharable st pids).exclusive = none ∧
    (∀ x, x ∈ st.sharable → x ∈ (acquire_all_sharable st pids).sharable) ∧
    (∀ pid, pid ∈ pids → pid ∈ (acquire_all_sharable st pids).sharable) := by
  induction pids generalizing st with
  | nil =>
    exact ⟨hfree, fun x hx => hx, fun pid hp => absurd hp (List.not_mem_nil pid)⟩
  | cons pid rest ih =>
    have hstep : (try_acquire_sharable st pid).1 = ⟨none, pid :: st.sharable⟩ := by
      unfold try_acquire_sharable
      rw [if_pos hfree]
    simp only [acquire_all_sharable]
    rw [hstep]
    obtain ⟨ih1, ih2, ih3⟩ := ih ⟨none, pid :: st.sharable⟩ rfl
    refine ⟨ih1, ?_, ?_⟩
    · intro x hx
      exact ih2 x (List.mem_cons_of_mem pid hx)
    · intro r hr
      rcases List.mem_cons.mp hr with hr1 | hr2
      · subst hr1
        exact ih2 r (List.mem_cons_self r st.sharable)
      · exact ih3 r hr2

/-- C8: in every reachable state of the advisory-lock protocol that all
instances over the same lock file delegate to, at most one holder has
exclusive ownership; whenever anyone holds exclusively, nobody holds
sharably; a sharable acquisition succeeds whenever no exclusive holder exists
(it never waits on other sharable holders); and from any exclusive-free state
any number of holders acquire sharable ownership simultaneously. -/
theorem C8_mutual_exclusion (m : file_mutex) (st : LockState)
    (p q pid r : Nat) (pids : List Nat) (hr : Reachable st) :
    (st.exclusive = some p → st.exclusive = some q → p = q) ∧
    (st.exclusive = some p → st.sharable = []) ∧
    (st.exclusive = none → (file_mutex.try_lock_sharable m st pid).2 = true) ∧
    (st.exclusive = none → (acquire_all_sharable st pids).exclusive = none) ∧
    (st.exclusive = none → r ∈ pids →
      r ∈ (acquire_all_sharable st pids).sharable) := by
  refine ⟨?_, ?_, ?_, ?_, ?_⟩
  · intro hp hq
    rw [hp] at hq
    exact Option.some.inj hq
  · intro hp
    rcases reachable_exc_or_no_sharable st hr with h | h
    · rw [hp] at h
      exact absurd h (by simp)
    · exact h
  · intro hfree
    show (try_acquire_sharable st pid).2 = true
    unfold try_acquire_sharable
    rw [if_pos hfree]
  · intro hfree
    exact (acquire_all_sharable_spec pids st hfree).1
  · intro hfree hrm
    exact (acquire_all_sharable_spec pids st hfree).2.2 r hrm

/-- Witness for C8 at the initial (free) state with two sharable contenders. -/
theorem C8_mutual_exclusion_witness :
    ((⟨none, []⟩ : LockState).exclusive = some 1 →
      (⟨none, []⟩ : LockState).exclusive = some 1 → 1 = 1) ∧
    ((⟨none, []⟩ : LockState).exclusive = some 1 →
      (⟨none, []⟩ : LockState).sharable = []) ∧
    ((⟨none, []⟩ : LockState).exclusive = none →
      (file_mutex.try_lock_sharable ⟨some 0⟩ ⟨none, []⟩ 2).2 = true) ∧
    ((⟨none, []⟩ : LockState).exclusive = none →
      (acquire_all_sharable ⟨none, []⟩ [3, 4]).exclusive = none) ∧
    ((⟨none, []⟩ : LockState).exclusive = none → 3 ∈ [3, 4] →
      3 ∈ (acquire_all_sharable ⟨none, []⟩ [3, 4]).sharable) :=
  C8_mutual_exclusion ⟨some 0⟩ ⟨none, []⟩ 1 1 2 3 [3, 4] Reachable.init

end FileMutexSpec
